import Mathlib

/-!
# Verification of the TCS Visualizer core

Shallow embedding of the `EnhancedTCMVisualization` class
(`src/unnamed/part_000`, the current snapshot of
`src/visualization/enhanced-visualization.js`) and of the colour helpers in
`src/components/ui.js`, together with proofs of the behavioural properties
stated in the specification.

Conventions of the embedding:
* JavaScript floating point numbers are modelled as exact rationals `ℚ`;
  all arithmetic performed by the code (`+`, `-`, `*`, `/`, `Math.max`,
  `Math.min`) is exact on the inputs exercised here.
* Colours in the rendering layer (`THREE.Color`) have channels in `[0, 1]`;
  the 8-bit colours handled by `ui.js` have channels in `0..255`.
* The mutable `this.…` fields of the visualization object are gathered in a
  `VisState` record; each method becomes a pure function from state to state
  (plus an error channel where the method reports via `console.error`).
-/

namespace TCS

/-- A `THREE.Color`: RGB with channels nominally in `[0,1]`, modelled with
exact rational channels. -/
structure Color where
  r : ℚ
  g : ℚ
  b : ℚ
deriving DecidableEq, Repr

/-- Channels of a `THREE.Color` are in the unit interval. -/
def ValidColor (c : Color) : Prop :=
  0 ≤ c.r ∧ c.r ≤ 1 ∧ 0 ≤ c.g ∧ c.g ≤ 1 ∧ 0 ≤ c.b ∧ c.b ≤ 1

instance (c : Color) : Decidable (ValidColor c) := by
  unfold ValidColor; infer_instance

/-- `new THREE.Color(0x000000)`. -/
def blackColor : Color := ⟨0, 0, 0⟩

/-- `new THREE.Color(0xffffff)`. -/
def whiteColor : Color := ⟨1, 1, 1⟩

/-- `THREE.Color.multiplyScalar(s)`: scales every channel. -/
def multiplyScalar (c : Color) (s : ℚ) : Color :=
  ⟨c.r * s, c.g * s, c.b * s⟩

/-- `THREE.Color.lerp(color, alpha)`: `this.r += (color.r - this.r) * alpha`
per channel. -/
def lerpColor (c target : Color) (alpha : ℚ) : Color :=
  ⟨c.r + (target.r - c.r) * alpha,
   c.g + (target.g - c.g) * alpha,
   c.b + (target.b - c.b) * alpha⟩

/-! ## 8-bit complementary colour (`src/components/ui.js`, lines 4-20)

`calculateComplementaryColor` parses the two-hex-digit channels of its input
(`parseInt(hex.substr(…), 16)`), inverts each channel as `255 - value`, and
re-serialises.  The embedding works on the parsed channels; hex
parsing/printing is a bijection between two-digit hex strings and `0..255`
and is elided. -/

/-- An 8-bit RGB colour as handled by `ui.js`. -/
structure Color8 where
  r : Fin 256
  g : Fin 256
  b : Fin 256
deriving DecidableEq, Repr

/-- `calculateComplementaryColor` (ui.js lines 13-16): channel-wise
`255 - value`. -/
def calculateComplementaryColor (c : Color8) : Color8 :=
  ⟨⟨255 - c.r.val, by omega⟩, ⟨255 - c.g.val, by omega⟩, ⟨255 - c.b.val, by omega⟩⟩

/-! ## HSL conversion (rendering substrate)

`updateKnitPatternColor` (part_000 lines 659-691) inverts the hue of the
current colour through `THREE.Color.getHSL` / `THREE.Color.setHSL`.  Those two
conversions live in the rendering library, which the spec treats as a provided
substrate; they are modelled here from the spec's description ("convert to
HSL, add 0.5 to hue modulo 1.0, convert back") following the standard
HSL conversion the library implements (max/min lightness, chroma-based
saturation, `hue2rgb` reconstruction). -/

/-- Modelled from the spec: `euclideanModulo(x, 1)` of the rendering library's
math utilities, i.e. `x` reduced to `[0, 1)`; equals `x - ⌊x⌋`.  JavaScript's
`%  1` agrees with this for the non-negative inputs that occur here. -/
def emod1 (x : ℚ) : ℚ := x - ⌊x⌋

/-- `clamp(x, 0, 1)`. -/
def clamp01 (x : ℚ) : ℚ := max 0 (min 1 x)

/-- Modelled from the spec: the `hue2rgb(p, q, t)` helper of the substrate's
HSL-to-RGB conversion (wrap `t` into `[0,1]`, then piecewise-linear ramp). -/
def hue2rgb (p q t : ℚ) : ℚ :=
  let t1 := if t < 0 then t + 1 else t
  let t2 := if t1 > 1 then t1 - 1 else t1
  if t2 < 1/6 then p + (q - p) * 6 * t2
  else if t2 < 1/2 then q
  else if t2 < 2/3 then p + (q - p) * 6 * (2/3 - t2)
  else p

/-- The local `p` computed by `setHSL` for a non-zero saturation:
`l <= 0.5 ? l * (1 + s) : l + s - (l * s)`. -/
def hslP (s l : ℚ) : ℚ := if l ≤ 1/2 then l * (1 + s) else l + s - l * s

/-- Modelled from the spec: `THREE.Color.setHSL(h, s, l)`.  Hue is reduced
modulo 1, saturation and lightness clamped to `[0,1]`; a zero saturation
yields the gray `(l,l,l)`, otherwise the channels are rebuilt with `hue2rgb`
(note the substrate calls `hue2rgb(q, p, …)` with its two mix points in that
order). -/
def setHSL (h s l : ℚ) : Color :=
  let h' := emod1 h
  let s' := clamp01 s
  let l' := clamp01 l
  if s' = 0 then ⟨l', l', l'⟩
  else
    let p := hslP s' l'
    let q := 2 * l' - p
    ⟨hue2rgb q p (h' + 1/3), hue2rgb q p h', hue2rgb q p (h' - 1/3)⟩

/-- Largest channel of a colour (`Math.max(r, g, b)`). -/
def maxChannel (c : Color) : ℚ := max c.r (max c.g c.b)

/-- Smallest channel of a colour (`Math.min(r, g, b)`). -/
def minChannel (c : Color) : ℚ := min c.r (min c.g c.b)

/-- The chroma `max - min` (the substrate's local `delta`). -/
def chroma (c : Color) : ℚ := maxChannel c - minChannel c

/-- Lightness `(min + max) / 2`. -/
def lightnessOf (c : Color) : ℚ := (minChannel c + maxChannel c) / 2

/-- Saturation for a non-gray colour: `delta / (max + min)` when the
lightness is `≤ 1/2`, else `delta / (2 - max - min)`. -/
def satOf (c : Color) : ℚ :=
  if lightnessOf c ≤ 1/2 then chroma c / (maxChannel c + minChannel c)
  else chroma c / (2 - maxChannel c - minChannel c)

/-- Hue (scaled by 6) for a non-gray colour, by cases on which channel is the
maximum, mirroring the substrate's `switch (max)`. -/
def hue6Of (c : Color) : ℚ :=
  if maxChannel c = c.r then (c.g - c.b) / chroma c + (if c.g < c.b then 6 else 0)
  else if maxChannel c = c.g then (c.b - c.r) / chroma c + 2
  else (c.r - c.g) / chroma c + 4

/-- HSL triple. -/
structure HSL where
  h : ℚ
  s : ℚ
  l : ℚ
deriving DecidableEq, Repr

/-- Modelled from the spec: `THREE.Color.getHSL`.  A gray (`min = max`) has
hue and saturation 0; otherwise hue and saturation follow `hue6Of`/`satOf`. -/
def getHSL (c : Color) : HSL :=
  if minChannel c = maxChannel c then ⟨0, 0, lightnessOf c⟩
  else ⟨hue6Of c / 6, satOf c, lightnessOf c⟩

/-- Hue inversion as performed by `updateKnitPatternColor`
(part_000 lines 664-675): read the HSL of the colour, add `0.5` to the hue
modulo `1.0`, and write the triple back. -/
def hueInvert (c : Color) : Color :=
  let hsl := getHSL c
  setHSL (emod1 (hsl.h + 1/2)) hsl.s hsl.l

/-! ## Materials

The claims only depend on the attributes a material carries: the colour fed
to the shader (`uniforms.mainColor.value` for the gradient `ShaderMaterial`,
`color` for `MeshBasicMaterial`), the opacity (`uniforms.opacity.value`
resp. `opacity`), the `transparent` flag and the `wireframe` flag. -/

/-- The render-relevant attributes of a material. -/
structure Material where
  mainColor : Color
  transparent : Bool
  opacity : ℚ
  wireframe : Bool
deriving DecidableEq, Repr

/-- `createTCSMaterial(color, isTransparent = false, opacity = 1.0)`
(part_000 lines 612-657): the vertical-gradient `ShaderMaterial` with the
given colour and opacity uniforms; never wireframe. -/
def createTCSMaterial (color : Color) (isTransparent : Bool := false)
    (opacity : ℚ := 1) : Material :=
  { mainColor := color, transparent := isTransparent, opacity := opacity,
    wireframe := false }

/-- The `MeshBasicMaterial({ color, wireframe: true, side: DoubleSide })`
built in the `knit-pattern` branch of `setDisplayMode`
(part_000 lines 1634-1649). -/
def wireframeBasicMaterial (color : Color) : Material :=
  { mainColor := color, transparent := false, opacity := 1, wireframe := true }

/-! ## Mutable state of the visualization object

One record gathering the `this.…` fields of `EnhancedTCMVisualization`
(part_000 lines 5-33) that the verified operations read or write, together
with the scene-object attributes they mutate (`knitPattern.visible`,
the two cylinder materials, and the `rotation.y` of the three rotated
objects).  Fields such as the renderer, the DOM handles or the grid helper
play no part in any claim and are omitted. -/
structure VisState where
  /-- `this.displayMode`; one of `knit-pattern`, `semi-transparent`, `solid`. -/
  displayMode : String
  /-- `this.transparencyLevel`. -/
  transparencyLevel : ℚ
  /-- `this.showMesh` — the stored mesh-overlay flag. -/
  showMesh : Bool
  /-- `this.invertMeshColor`. -/
  invertMeshColor : Bool
  /-- `this.useGrayLining`. -/
  useGrayLining : Bool
  /-- `this.isRotating`. -/
  isRotating : Bool
  /-- `this.currentColor`. -/
  currentColor : Color
  /-- `this.complementaryColor`. -/
  complementaryColor : Color
  /-- `this.grayLiningColor` (`0x666666`). -/
  grayLiningColor : Color
  /-- `this.stemMaxOffset`. -/
  stemMaxOffset : ℚ
  /-- `this.useCurvedStem`. -/
  useCurvedStem : Bool
  /-- `this.showMultipleStems`. -/
  showMultipleStems : Bool
  /-- `this.curvedStemSegments` (an integral count in this code path). -/
  curvedStemSegments : ℤ
  /-- `this.cylinder.material` — outer surface material. -/
  cylinderMaterial : Material
  /-- `this.innerCylinder.material` — inner lining material. -/
  innerCylinderMaterial : Material
  /-- `this.knitPattern.visible` — mesh overlay visibility in the scene. -/
  knitPatternVisible : Bool
  /-- The colour of the knit-pattern line materials. -/
  knitColor : Color
  /-- `this.cylinder.rotation.y`. -/
  cylinderRotY : ℚ
  /-- `this.innerCylinder.rotation.y`. -/
  innerCylinderRotY : ℚ
  /-- `this.centerLine.rotation.y`. -/
  centerLineRotY : ℚ
deriving DecidableEq, Repr

/-- The lining colour: `this.useGrayLining ? this.grayLiningColor :
this.complementaryColor` (part_000 lines 1611, 1625, 1644). -/
def liningColor (s : VisState) : Color :=
  if s.useGrayLining then s.grayLiningColor else s.complementaryColor

/-- The colour `updateKnitPatternColor` (part_000 lines 659-691) writes to
the knit-pattern materials: the hue-inverted current colour when
`invertMeshColor` is set, the current colour otherwise. -/
def knitMeshColor (s : VisState) : Color :=
  if s.invertMeshColor then hueInvert s.currentColor else s.currentColor

/-- The effect on the modelled fields of the trailing
`this.setColor(this.currentColor)` call of `setDisplayMode`
(part_000 line 1656, method at lines 715-767): the `mainColor` uniform of the
outer cylinder is set to `currentColor` and the knit-pattern colour is reset
to `currentColor`.  (`setColor` also writes `this.innerCylinder.material.color
= this.complementaryColor`, a plain JS property on the inner `ShaderMaterial`
that is distinct from the `mainColor` uniform the shader reads, and updates
the stem uniforms, UI swatches and the stored fallback material — none of
which are fields modelled here.) -/
def setColorEffect (s : VisState) : VisState :=
  { s with cylinderMaterial := { s.cylinderMaterial with mainColor := s.currentColor },
           knitColor := s.currentColor }

/-- The recognised display modes (part_000 line 1539). -/
def validDisplayModes : List String := ["knit-pattern", "semi-transparent", "solid"]

/-- `setDisplayMode(mode)` (part_000 lines 1537-1657).  An unrecognised mode
is reported through `console.error` (the `some` error channel) and leaves the
state untouched.  For a recognised mode: `this.displayMode` is set; the knit
pattern is shown unconditionally in `knit-pattern` mode and according to
`showMesh` otherwise (the `switch` at lines 1562-1600); and fresh materials
replace both cylinder materials according to the mode (lines 1602-1653) —
the intermediate clones of `originalMaterials` and their `wireframe` writes
(lines 1549, 1572-1573, 1581-1582, 1592-1593) are overwritten by these fresh
materials in every recognised mode and so do not survive into the final
state.  The `knit-pattern` branch additionally runs `updateKnitPatternColor`
(line 1576).  Finally `setColor(currentColor)` runs (line 1656). -/
def setDisplayMode (mode : String) (s : VisState) : VisState × Option String :=
  if mode ∉ validDisplayModes then
    (s, some "Invalid display mode")
  else
    let s := { s with displayMode := mode }
    let s := { s with knitPatternVisible :=
                 if mode = "knit-pattern" then true else s.showMesh }
    let s :=
      if mode = "solid" then
        { s with cylinderMaterial := createTCSMaterial s.currentColor false 1,
                 innerCylinderMaterial := createTCSMaterial (liningColor s) false 1 }
      else if mode = "semi-transparent" then
        { s with cylinderMaterial :=
                   createTCSMaterial s.currentColor true s.transparencyLevel,
                 innerCylinderMaterial :=
                   createTCSMaterial (liningColor s) true
                     (max (1/20) (s.transparencyLevel * (1/2))) }
      else
        { s with knitColor := knitMeshColor s,
                 cylinderMaterial := wireframeBasicMaterial s.currentColor,
                 innerCylinderMaterial := wireframeBasicMaterial (liningColor s) }
    (setColorEffect s, none)

/-- `setTransparencyLevel(level)` (part_000 lines 1422-1443): clamps the
level to `[0,1]`, stores it, and — only in `semi-transparent` mode — writes
the opacity uniforms of both cylinder materials (the inner one at
`max(0.05, level * 0.5)`). -/
def setTransparencyLevel (level : ℚ) (s : VisState) : VisState :=
  let lvl := max 0 (min 1 level)
  let s' := { s with transparencyLevel := lvl }
  if s'.displayMode = "semi-transparent" then
    { s' with cylinderMaterial := { s'.cylinderMaterial with opacity := lvl },
              innerCylinderMaterial :=
                { s'.innerCylinderMaterial with
                    opacity := max (1/20) (lvl * (1/2)) } }
  else s'

/-- `setStemSegments(segments)` (part_000 lines 555-564): clamps to `[4,24]`
and stores; the stem rebuild it triggers is the derived `createCurvedStem`
below. -/
def setStemSegments (segments : ℤ) (s : VisState) : VisState :=
  { s with curvedStemSegments := max 4 (min segments 24) }

/-- `setStemOffset(offset)` (part_000 lines 544-549): stores the offset as
given — the source performs no clamping — and rebuilds the curved stem. -/
def setStemOffset (offset : ℚ) (s : VisState) : VisState :=
  { s with stemMaxOffset := offset }

/-- `toggleMesh(show)` (part_000 lines 1409-1420): stores the flag and, when
not in construction (`knit-pattern`) mode, applies it to the knit pattern's
visibility. -/
def toggleMesh (showFlag : Bool) (s : VisState) : VisState :=
  let s' := { s with showMesh := showFlag }
  if s'.displayMode ≠ "knit-pattern" then
    { s' with knitPatternVisible := showFlag }
  else s'

/-- `toggleRotation(isRotating)` (part_000 lines 598-610): stores the flag;
when turning rotation on, resets the `rotation.y` of the outer cylinder, the
inner cylinder and the stem group to `0`. -/
def toggleRotation (isRotating : Bool) (s : VisState) : VisState :=
  let s' := { s with isRotating := isRotating }
  if isRotating then
    { s' with cylinderRotY := 0, innerCylinderRotY := 0, centerLineRotY := 0 }
  else s'

/-- `toggleMultipleStems(showMultiple)` (part_000 lines 585-592). -/
def toggleMultipleStems (showMultiple : Bool) (s : VisState) : VisState :=
  { s with showMultipleStems := showMultiple }

/-- `new THREE.Color(0xFF5733)` — the initial `this.currentColor`. -/
def initialCurrentColor : Color := ⟨1, 87/255, 51/255⟩

/-- `new THREE.Color(0x33B5FF)` — the initial `this.complementaryColor`. -/
def initialComplementaryColor : Color := ⟨51/255, 181/255, 1⟩

/-- The state as built by the constructor (part_000 lines 5-36) and
`createVisualization` (lines 184-230): field defaults from the constructor,
the TCS gradient materials from `createVisualization` (the inner one's dead
`.opacity` property write at line 209 does not reach the shader's opacity
uniform, which stays at its default `1.0`), knit pattern created hidden, no
rotation applied yet. -/
def constructedState : VisState :=
  { displayMode := "solid"
    transparencyLevel := 3/10
    showMesh := false
    invertMeshColor := false
    useGrayLining := false
    isRotating := false
    currentColor := initialCurrentColor
    complementaryColor := initialComplementaryColor
    grayLiningColor := ⟨2/5, 2/5, 2/5⟩
    stemMaxOffset := 2/5
    useCurvedStem := true
    showMultipleStems := false
    curvedStemSegments := 12
    cylinderMaterial := createTCSMaterial initialCurrentColor
    innerCylinderMaterial := createTCSMaterial initialComplementaryColor
    knitPatternVisible := false
    knitColor := initialCurrentColor
    cylinderRotY := 0
    innerCylinderRotY := 0
    centerLineRotY := 0 }

/-- The state after `init()` (part_000 lines 38-55), which ends construction
with `setDisplayMode('solid')`. -/
def initialState : VisState := (setDisplayMode "solid" constructedState).1

/-! ## Stem generation (`createCurvedStem`, part_000 lines 292-498)

Each curved stem lives at an angle `angle = (i / segments) * 2π` around the
cylinder axis and its control points are Cartesian
`(ρ · cos angle, y, ρ · sin angle)` for a radial offset `ρ` and height `y`.
The embedding stores positions in these cylindrical coordinates: a path
carries its angle as the fraction `angleTurn = angle / 2π` of a full turn,
and each control point carries its radial offset `ρ` and height `y`.  This
is a bijective renaming of the data the source computes (`cos`/`sin` of the
angle are evaluated by the rendering substrate) that keeps every quantity
exact and decidable. -/

/-- One control point of a stem path: radial offset from the central axis,
height, and colour. -/
structure StemPoint where
  radial : ℚ
  height : ℚ
  color : Color
deriving DecidableEq, Repr

/-- One curved stem path: its angle around the axis (as a fraction of a full
turn, i.e. the source's `angle / (2π)`) and its ordered control points. -/
structure StemPath where
  angleTurn : ℚ
  points : List StemPoint
deriving DecidableEq, Repr

instance : Inhabited StemPath := ⟨⟨0, []⟩⟩

/-- The `segmentPoints` array built for every curved stem (part_000 lines
323-350 and identically 412-439): five points at heights −1.5, −0.75, 0,
0.75, 1.5, radial offsets 0, `stemMaxOffset·0.5`, `stemMaxOffset`,
`stemMaxOffset·0.5`, 0 along the stem's angular direction, coloured black,
`currentColor × 0.3`, `currentColor`, `currentColor` lerped 70 % towards
white, and white. -/
def segmentPoints (color : Color) (offset : ℚ) : List StemPoint :=
  [ ⟨0, -(3/2), blackColor⟩,
    ⟨offset * (1/2), -(3/4), multiplyScalar color (3/10)⟩,
    ⟨offset, 0, color⟩,
    ⟨offset * (1/2), 3/4, lerpColor color whiteColor (7/10)⟩,
    ⟨0, 3/2, whiteColor⟩ ]

/-- A member of the stem group `createCurvedStem` assembles: the straight
central stem (a radius-0.05 cylinder along the axis, i.e. radial offset 0 at
every height, coloured/emissive in the given colour) or a curved tube swept
through a `StemPath`. -/
inductive Stem where
  | straight (color : Color)
  | curved (path : StemPath)
deriving DecidableEq, Repr

/-- `createCurvedStem()` (part_000 lines 292-498): always one straight
central stem; then, with `showMultipleStems`, one curved path per segment `i`
at angle `(i / segments) * 2π` (`segments = this.curvedStemSegments || 12`),
otherwise a single curved path at angle 0. -/
def createCurvedStem (s : VisState) : List Stem :=
  let straightStem := Stem.straight s.currentColor
  if s.showMultipleStems then
    let segments := (if s.curvedStemSegments = 0 then 12 else s.curvedStemSegments).toNat
    straightStem ::
      (List.range segments).map (fun (i : ℕ) =>
        Stem.curved ⟨(i : ℚ) / (segments : ℚ),
                     segmentPoints s.currentColor s.stemMaxOffset⟩)
  else
    [straightStem, Stem.curved ⟨0, segmentPoints s.currentColor s.stemMaxOffset⟩]

/-- The curved paths of a stem group, in order. -/
def curvedPaths (stems : List Stem) : List StemPath :=
  stems.filterMap (fun st =>
    match st with
    | .curved p => some p
    | .straight _ => none)

/-- The straight central stems of a stem group. -/
def straightStems (stems : List Stem) : List Color :=
  stems.filterMap (fun st =>
    match st with
    | .straight c => some c
    | .curved _ => none)

/-! ## Camera (`resetCamera` and the animation helpers)

`part_000` defines `resetCamera` three times (lines 946, 1229 and 1679).  In
a JavaScript class body a later method definition overwrites the earlier
slot on the prototype, so the definition at lines 1679-1683 is the one every
call site reaches. -/

/-- A camera pose: position and look-at target. -/
structure Vec3 where
  x : ℚ
  y : ℚ
  z : ℚ
deriving DecidableEq, Repr

/-- Camera pose state (`camera.position` and `controls.target`). -/
structure CameraState where
  position : Vec3
  target : Vec3
deriving DecidableEq, Repr

/-- `THREE.Vector3.lerpVectors(a, b, t)`: `a + (b - a) * t` per component. -/
def lerpVec (a b : Vec3) (t : ℚ) : Vec3 :=
  ⟨a.x + (b.x - a.x) * t, a.y + (b.y - a.y) * t, a.z + (b.z - a.z) * t⟩

/-- The ease-out cubic used by every camera animation in the source
(part_000 lines 960, 1100, 1315): `1 - (1 - progress)³`. -/
def easeOutCubic (progress : ℚ) : ℚ := 1 - (1 - progress) ^ 3

/-- `Math.min(elapsed / duration, 1)` — the clamped progress of an
animation frame (part_000 line 1312). -/
def cameraProgress (elapsed duration : ℚ) : ℚ := min (elapsed / duration) 1

/-- One animation frame of `animateCameraMove(newPosition, newTarget)`
(part_000 lines 1303-1342): the pose `elapsed` milliseconds after the call,
interpolated from the pose at call time with the eased factor.  The
`duration` is fixed at 1000 ms. -/
def animateCameraMoveSample (start : CameraState) (newPosition newTarget : Vec3)
    (elapsed : ℚ) : CameraState :=
  let ease := easeOutCubic (cameraProgress elapsed 1000)
  ⟨lerpVec start.position newPosition ease, lerpVec start.target newTarget ease⟩

/-- The default pose targeted by the *shadowed* animated `resetCamera`
(part_000 lines 1235-1236). -/
def shadowedResetTargetPosition : Vec3 :=
  ⟨0.005039515598749067, 2.3361920342575657, 1.9404878995926225⟩

/-- One frame of the animated reset that the shadowed definition at part_000
lines 1229-1240 would perform: `animateCameraMove` towards
`shadowedResetTargetPosition` / origin. -/
def shadowedResetCameraSample (start : CameraState) (elapsed : ℚ) : CameraState :=
  animateCameraMoveSample start shadowedResetTargetPosition ⟨0, 0, 0⟩ elapsed

/-- The `resetCamera` definition that is effective at runtime (part_000
lines 1679-1683, the last of the three): `camera.position.set(0, 2, 5)`,
`camera.lookAt(0, 0, 0)`, then `controls.reset()`, all synchronously in the
call — no animation frames are scheduled.  (`controls.reset()` additionally
restores the orbit controls' saved state inside the rendering substrate;
it is likewise instantaneous.) -/
def resetCameraEffective (_cam : CameraState) : CameraState :=
  ⟨⟨0, 2, 5⟩, ⟨0, 0, 0⟩⟩

/-! ## Claim theorems and supporting lemmas -/

example : hueInvert ⟨1, 1/3, 0⟩ = ⟨0, 2/3, 1⟩ := by norm_num [hueInvert, getHSL, setHSL, hslP, hue2rgb, emod1, clamp01, minChannel, maxChannel, chroma, lightnessOf, satOf, hue6Of]

example : hueInvert (hueInvert ⟨1, 1/3, 0⟩) = ⟨1, 1/3, 0⟩ := by norm_num [hueInvert, getHSL, setHSL, hslP, hue2rgb, emod1, clamp01, minChannel, maxChannel, chroma, lightnessOf, satOf, hue6Of]

lemma hue2rgb_lo (p q t : ℚ) (h0 : 0 ≤ t) (h1 : t < 1/6) :
    hue2rgb p q t = p + (q - p) * 6 * t := by
  unfold hue2rgb
  dsimp only
  split_ifs <;> linarith

lemma hue2rgb_mid (p q t : ℚ) (h0 : 1/6 ≤ t) (h1 : t < 1/2) :
    hue2rgb p q t = q := by
  unfold hue2rgb
  dsimp only
  split_ifs <;> linarith

lemma hue2rgb_hi (p q t : ℚ) (h0 : 1/2 ≤ t) (h1 : t < 2/3) :
    hue2rgb p q t = p + (q - p) * 6 * (2/3 - t) := by
  unfold hue2rgb
  dsimp only
  split_ifs <;> linarith

lemma hue2rgb_top (p q t : ℚ) (h0 : 2/3 ≤ t) (h1 : t ≤ 1) :
    hue2rgb p q t = p := by
  unfold hue2rgb
  dsimp only
  split_ifs <;> linarith

set_option maxHeartbeats 2000000 in
lemma hue2rgb_wrap_neg (p q t : ℚ) (h0 : -1 ≤ t) (h1 : t < 0) :
    hue2rgb p q t = hue2rgb p q (t + 1) := by
  unfold hue2rgb
  dsimp only
  split_ifs <;> linarith

set_option maxHeartbeats 2000000 in
lemma hue2rgb_wrap_pos (p q t : ℚ) (h0 : 1 < t) (h1 : t ≤ 2) :
    hue2rgb p q t = hue2rgb p q (t - 1) := by
  unfold hue2rgb
  dsimp only
  split_ifs <;> linarith

lemma emod1_eq_fract (x : ℚ) : emod1 x = Int.fract x := rfl

lemma emod1_eq_self {x : ℚ} (h0 : 0 ≤ x) (h1 : x < 1) : emod1 x = x := by
  rw [emod1_eq_fract]
  exact Int.fract_eq_self.mpr ⟨h0, h1⟩

lemma emod1_nonneg (x : ℚ) : 0 ≤ emod1 x := by
  rw [emod1_eq_fract]; exact Int.fract_nonneg x

lemma emod1_lt_one (x : ℚ) : emod1 x < 1 := by
  rw [emod1_eq_fract]; exact Int.fract_lt_one x

lemma emod1_add_one (x : ℚ) : emod1 (x + 1) = emod1 x := by
  rw [emod1_eq_fract, emod1_eq_fract, show (x + 1 : ℚ) = x + (1 : ℤ) by push_cast; ring,
      Int.fract_add_int]

/-- Adding another half turn to an already-reduced half-turn shift restores
the original hue. -/
lemma emod1_half_half {h : ℚ} (h0 : 0 ≤ h) (h1 : h < 1) :
    emod1 (emod1 (h + 1/2) + 1/2) = h := by
  rcases lt_or_le h (1/2) with hc | hc
  · rw [emod1_eq_self (by linarith) (by linarith : h + 1/2 < 1),
        show (h + 1/2 + 1/2 : ℚ) = h + 1 by ring, emod1_add_one,
        emod1_eq_self h0 h1]
  · have hfloor : (⌊h + 1/2⌋ : ℤ) = 1 := by
      rw [Int.floor_eq_iff]
      constructor <;> push_cast <;> linarith
    have : emod1 (h + 1/2) = h - 1/2 := by
      simp only [emod1, hfloor]
      push_cast; ring
    rw [this, show (h - 1/2 + 1/2 : ℚ) = h by ring, emod1_eq_self h0 h1]

lemma clamp01_eq_self {x : ℚ} (h0 : 0 ≤ x) (h1 : x ≤ 1) : clamp01 x = x := by
  simp only [clamp01]
  rw [min_eq_right h1, max_eq_right h0]

lemma maxChannel_mk (x y z : ℚ) : maxChannel ⟨x, y, z⟩ = max x (max y z) := rfl

lemma minChannel_mk (x y z : ℚ) : minChannel ⟨x, y, z⟩ = min x (min y z) := rfl

lemma r_le_maxChannel (c : Color) : c.r ≤ maxChannel c := le_max_left _ _

lemma g_le_maxChannel (c : Color) : c.g ≤ maxChannel c :=
  le_trans (le_max_left _ _) (le_max_right _ _)

lemma b_le_maxChannel (c : Color) : c.b ≤ maxChannel c :=
  le_trans (le_max_right _ _) (le_max_right _ _)

lemma minChannel_le_r (c : Color) : minChannel c ≤ c.r := min_le_left _ _

lemma minChannel_le_g (c : Color) : minChannel c ≤ c.g :=
  le_trans (min_le_right _ _) (min_le_left _ _)

lemma minChannel_le_b (c : Color) : minChannel c ≤ c.b :=
  le_trans (min_le_right _ _) (min_le_right _ _)

lemma minChannel_le_maxChannel (c : Color) : minChannel c ≤ maxChannel c :=
  le_trans (minChannel_le_r c) (r_le_maxChannel c)

lemma maxChannel_le_one {c : Color} (hv : ValidColor c) : maxChannel c ≤ 1 :=
  max_le hv.2.1 (max_le hv.2.2.2.1 hv.2.2.2.2.2)

lemma minChannel_nonneg {c : Color} (hv : ValidColor c) : 0 ≤ minChannel c :=
  le_min hv.1 (le_min hv.2.2.1 hv.2.2.2.2.1)

/-- A colour whose smallest and largest channels agree is a gray. -/
lemma gray_channels {c : Color} (hgray : minChannel c = maxChannel c) :
    c.g = c.r ∧ c.b = c.r := by
  have h1 := minChannel_le_r c
  have h2 := minChannel_le_g c
  have h3 := minChannel_le_b c
  have h4 := r_le_maxChannel c
  have h5 := g_le_maxChannel c
  have h6 := b_le_maxChannel c
  constructor <;> linarith

/-- The maximum channel is one of the three channels. -/
lemma maxChannel_cases (c : Color) :
    maxChannel c = c.r ∨ maxChannel c = c.g ∨ maxChannel c = c.b := by
  unfold maxChannel
  rcases max_choice c.r (max c.g c.b) with h | h
  · exact Or.inl h
  · rcases max_choice c.g c.b with h' | h' <;> rw [h, h']
    · exact Or.inr (Or.inl rfl)
    · exact Or.inr (Or.inr rfl)

lemma hue6Of_case_r {c : Color} (hmx : maxChannel c = c.r) (hgb : ¬ c.g < c.b) :
    hue6Of c = (c.g - c.b) / chroma c := by
  unfold hue6Of
  rw [if_pos hmx, if_neg hgb, add_zero]

lemma hue6Of_case_r' {c : Color} (hmx : maxChannel c = c.r) (hgb : c.g < c.b) :
    hue6Of c = (c.g - c.b) / chroma c + 6 := by
  unfold hue6Of
  rw [if_pos hmx, if_pos hgb]

lemma hue6Of_case_g {c : Color} (hr : ¬ maxChannel c = c.r)
    (hmx : maxChannel c = c.g) : hue6Of c = (c.b - c.r) / chroma c + 2 := by
  unfold hue6Of
  rw [if_neg hr, if_pos hmx]

lemma hue6Of_case_b {c : Color} (hr : ¬ maxChannel c = c.r)
    (hg : ¬ maxChannel c = c.g) : hue6Of c = (c.r - c.g) / chroma c + 4 := by
  unfold hue6Of
  rw [if_neg hr, if_neg hg]

/-- Evaluation of `setHSL` on an in-range non-gray triple: no reduction or
clamping fires and the saturated branch is taken. -/
lemma setHSL_eval (h s l : ℚ) (hh0 : 0 ≤ h) (hh1 : h < 1) (hs0 : 0 < s)
    (hs1 : s ≤ 1) (hl0 : 0 ≤ l) (hl1 : l ≤ 1) :
    setHSL h s l =
      ⟨hue2rgb (2 * l - hslP s l) (hslP s l) (h + 1/3),
       hue2rgb (2 * l - hslP s l) (hslP s l) h,
       hue2rgb (2 * l - hslP s l) (hslP s l) (h - 1/3)⟩ := by
  unfold setHSL
  dsimp only
  rw [emod1_eq_self hh0 hh1, clamp01_eq_self hs0.le hs1, clamp01_eq_self hl0 hl1,
      if_neg (ne_of_gt hs0)]

lemma setHSL_zero_sat (h l : ℚ) (hl0 : 0 ≤ l) (hl1 : l ≤ 1) :
    setHSL h 0 l = ⟨l, l, l⟩ := by
  unfold setHSL
  dsimp only
  rw [clamp01_eq_self (le_refl (0 : ℚ)) (by norm_num), clamp01_eq_self hl0 hl1,
      if_pos rfl]

lemma getHSL_gray {c : Color} (hgray : minChannel c = maxChannel c) :
    getHSL c = ⟨0, 0, lightnessOf c⟩ := by
  unfold getHSL
  rw [if_pos hgray]

lemma getHSL_nongray {c : Color} (hne : ¬ minChannel c = maxChannel c) :
    getHSL c = ⟨hue6Of c / 6, satOf c, lightnessOf c⟩ := by
  unfold getHSL
  rw [if_neg hne]

lemma gray_lightness {c : Color} (hgray : minChannel c = maxChannel c) :
    lightnessOf c = c.r := by
  obtain ⟨hg, hb⟩ := gray_channels hgray
  unfold lightnessOf minChannel maxChannel
  rw [hg, hb, min_self, max_self, min_self, max_self]
  ring

/-- Hue inversion of a gray is the identity (the claim's saturation-0 edge
case). -/
lemma hueInvert_gray {c : Color} (hv : ValidColor c)
    (hgray : minChannel c = maxChannel c) : hueInvert c = c := by
  obtain ⟨hg, hb⟩ := gray_channels hgray
  unfold hueInvert
  rw [getHSL_gray hgray]
  dsimp only
  rw [setHSL_zero_sat _ _ (by rw [gray_lightness hgray]; exact hv.1)
        (by rw [gray_lightness hgray]; exact hv.2.1),
      gray_lightness hgray]
  obtain ⟨r, g, b⟩ := c
  simp only at hg hb
  rw [hg, hb]

lemma satOf_pos {c : Color} (hv : ValidColor c)
    (hlt : minChannel c < maxChannel c) : 0 < satOf c := by
  have h1 := minChannel_nonneg hv
  have h2 := maxChannel_le_one hv
  unfold satOf chroma
  split_ifs with hc
  · exact div_pos (by linarith) (by linarith)
  · exact div_pos (by linarith) (by linarith)

lemma satOf_le_one {c : Color} (hv : ValidColor c)
    (hlt : minChannel c < maxChannel c) : satOf c ≤ 1 := by
  have h1 := minChannel_nonneg hv
  have h2 := maxChannel_le_one hv
  unfold satOf chroma
  split_ifs with hc
  · rw [div_le_one (by linarith)]; linarith
  · rw [div_le_one (by linarith)]; linarith

lemma lightnessOf_pos {c : Color} (hv : ValidColor c)
    (hlt : minChannel c < maxChannel c) : 0 < lightnessOf c := by
  have h1 := minChannel_nonneg hv
  unfold lightnessOf
  linarith

lemma lightnessOf_lt_one {c : Color} (hv : ValidColor c)
    (hlt : minChannel c < maxChannel c) : lightnessOf c < 1 := by
  have h2 := maxChannel_le_one hv
  unfold lightnessOf
  linarith

lemma hue6Of_range {c : Color} (hv : ValidColor c)
    (hlt : minChannel c < maxChannel c) : 0 ≤ hue6Of c ∧ hue6Of c < 6 := by
  have hdelta : 0 < chroma c := by unfold chroma; linarith
  have hgm := g_le_maxChannel c
  have hbm := b_le_maxChannel c
  have hrm := r_le_maxChannel c
  have hmg := minChannel_le_g c
  have hmb := minChannel_le_b c
  have hmr := minChannel_le_r c
  have hub : ∀ x y : ℚ, minChannel c ≤ y → x ≤ maxChannel c →
      (x - y) / chroma c ≤ 1 := by
    intro x y hy hx
    rw [div_le_one hdelta]
    unfold chroma
    linarith
  have hlb : ∀ x y : ℚ, minChannel c ≤ x → y ≤ maxChannel c →
      (-1 : ℚ) ≤ (x - y) / chroma c := by
    intro x y hx hy
    rw [le_div_iff hdelta]
    unfold chroma
    linarith
  unfold hue6Of
  split_ifs with h1 h2 h3
  · -- max = r, g < b
    have ha := hlb c.g c.b hmg hbm
    have hb' : (c.g - c.b) / chroma c < 0 :=
      div_neg_of_neg_of_pos (by linarith) hdelta
    constructor <;> linarith
  · -- max = r, g ≥ b
    have ha := div_nonneg (by linarith : (0:ℚ) ≤ c.g - c.b) hdelta.le
    have hb' := hub c.g c.b hmb hgm
    constructor <;> linarith
  · -- max = g
    have ha := hlb c.b c.r hmb hrm
    have hb' := hub c.b c.r hmr hbm
    constructor <;> linarith
  · -- max = b
    have ha := hlb c.r c.g hmr hgm
    have hb' := hub c.r c.g hmg hrm
    constructor <;> linarith

lemma getHSL_ranges {c : Color} (hv : ValidColor c)
    (hne : ¬ minChannel c = maxChannel c) :
    0 ≤ (getHSL c).h ∧ (getHSL c).h < 1 ∧ 0 < (getHSL c).s ∧
    (getHSL c).s ≤ 1 ∧ 0 < (getHSL c).l ∧ (getHSL c).l < 1 := by
  have hlt := lt_of_le_of_ne (minChannel_le_maxChannel c) hne
  rw [getHSL_nongray hne]
  obtain ⟨hh0, hh6⟩ := hue6Of_range hv hlt
  exact ⟨by positivity, by linarith, satOf_pos hv hlt, satOf_le_one hv hlt,
         lightnessOf_pos hv hlt, lightnessOf_lt_one hv hlt⟩

/-- First HSL round trip: writing back the HSL triple read from a valid
colour reproduces the colour exactly. -/
lemma setHSL_getHSL (c : Color) (hv : ValidColor c) :
    setHSL (getHSL c).h (getHSL c).s (getHSL c).l = c := by
  by_cases hgray : minChannel c = maxChannel c
  · obtain ⟨hgc, hbc⟩ := gray_channels hgray
    rw [getHSL_gray hgray]
    dsimp only
    rw [setHSL_zero_sat _ _ (by rw [gray_lightness hgray]; exact hv.1)
          (by rw [gray_lightness hgray]; exact hv.2.1), gray_lightness hgray]
    obtain ⟨r, g, b⟩ := c
    simp only at hgc hbc
    rw [hgc, hbc]
  · have hlt := lt_of_le_of_ne (minChannel_le_maxChannel c) hgray
    obtain ⟨hh0, hh6⟩ := hue6Of_range hv hlt
    have hsum : 0 < maxChannel c + minChannel c := by
      have := minChannel_nonneg hv; linarith
    have h2sum : 0 < 2 - maxChannel c - minChannel c := by
      have := maxChannel_le_one hv; have := minChannel_nonneg hv; linarith
    rw [getHSL_nongray hgray]
    dsimp only
    rw [setHSL_eval _ _ _ (by positivity) (by linarith) (satOf_pos hv hlt)
          (satOf_le_one hv hlt) (lightnessOf_pos hv hlt).le
          (lightnessOf_lt_one hv hlt).le]
    have hp : hslP (satOf c) (lightnessOf c) = maxChannel c := by
      unfold hslP satOf lightnessOf chroma
      split_ifs with hc
      · field_simp
        ring
      · field_simp
        ring
    rw [hp]
    have hq : 2 * lightnessOf c - maxChannel c = minChannel c := by
      unfold lightnessOf; ring
    rw [hq]
    obtain ⟨r, g, b⟩ := c
    obtain ⟨hr0, hr1, hg0, hg1, hb0, hb1⟩ := hv
    simp only [Color.mk.injEq]
    by_cases hmr : maxChannel ⟨r, g, b⟩ = r
    · -- case max = r
      have hgr : g ≤ r := by
        have h := g_le_maxChannel ⟨r, g, b⟩; rw [hmr] at h; exact h
      have hbr : b ≤ r := by
        have h := b_le_maxChannel ⟨r, g, b⟩; rw [hmr] at h; exact h
      have hminr : minChannel ⟨r, g, b⟩ = min g b := by
        rw [minChannel_mk]
        exact min_eq_right (le_trans (min_le_left g b) hgr)
      by_cases hgb : g < b
      · -- g < b, so min = g
        have hmn : minChannel ⟨r, g, b⟩ = g := by
          rw [hminr]; exact min_eq_left hgb.le
        have hdpos : (0 : ℚ) < r - g := by
          rw [hmn, hmr] at hlt; linarith
        have hd : chroma ⟨r, g, b⟩ = r - g := by
          unfold chroma; rw [hmr, hmn]
        have hhue : hue6Of ⟨r, g, b⟩ = (g - b) / (r - g) + 6 := by
          rw [hue6Of_case_r' hmr hgb, hd]
        rw [hmr, hmn, hhue]
        set w := (g - b) / (r - g) with hw
        have hw0 : w < 0 := div_neg_of_neg_of_pos (by linarith) hdpos
        have hw1 : (-1 : ℚ) ≤ w := by rw [hw, le_div_iff hdpos]; linarith
        refine ⟨?_, ?_, ?_⟩
        · rw [hue2rgb_wrap_pos _ _ _ (by linarith) (by linarith),
              hue2rgb_mid _ _ _ (by linarith) (by linarith)]
        · rw [hue2rgb_top _ _ _ (by linarith) (by linarith)]
        · rw [hue2rgb_hi _ _ _ (by linarith) (by linarith), hw]
          field_simp
          ring
      · -- b ≤ g, so min = b
        have hble : b ≤ g := not_lt.mp hgb
        have hmn : minChannel ⟨r, g, b⟩ = b := by
          rw [hminr]; exact min_eq_right hble
        have hdpos : (0 : ℚ) < r - b := by
          rw [hmn, hmr] at hlt; linarith
        have hd : chroma ⟨r, g, b⟩ = r - b := by
          unfold chroma; rw [hmr, hmn]
        have hhue : hue6Of ⟨r, g, b⟩ = (g - b) / (r - b) := by
          rw [hue6Of_case_r hmr hgb, hd]
        rw [hmr, hmn, hhue]
        set w := (g - b) / (r - b) with hw
        have hw0 : 0 ≤ w := div_nonneg (by linarith) hdpos.le
        have hw1 : w ≤ 1 := by rw [hw, div_le_one hdpos]; linarith
        refine ⟨?_, ?_, ?_⟩
        · by_cases hcase : w < 1
          · rw [hue2rgb_mid _ _ _ (by linarith) (by linarith)]
          · have hweq : w = 1 := le_antisymm hw1 (not_lt.mp hcase)
            rw [hweq, hue2rgb_hi _ _ _ (by norm_num) (by norm_num)]
            ring
        · by_cases hcase : w < 1
          · rw [hue2rgb_lo _ _ _ (by linarith) (by linarith), hw]
            field_simp
          · have hweq : w = 1 := le_antisymm hw1 (not_lt.mp hcase)
            have hgr_eq : g = r := by
              have := (div_eq_one_iff_eq (ne_of_gt hdpos)).mp (hw ▸ hweq)
              linarith
            rw [hweq, hue2rgb_mid _ _ _ (by norm_num) (by norm_num)]
            exact hgr_eq.symm
        · rw [hue2rgb_wrap_neg _ _ _ (by linarith) (by linarith),
              hue2rgb_top _ _ _ (by linarith) (by linarith)]
    · by_cases hmg : maxChannel ⟨r, g, b⟩ = g
      · -- case max = g
        have hrg : r < g := by
          have h := r_le_maxChannel ⟨r, g, b⟩
          rcases lt_or_eq_of_le h with h' | h'
          · rw [hmg] at h'; exact h'
          · exact absurd h'.symm hmr
        have hbg : b ≤ g := by
          have h := b_le_maxChannel ⟨r, g, b⟩; rw [hmg] at h; exact h
        have hminr : minChannel ⟨r, g, b⟩ = min r b := by
          rw [minChannel_mk, min_eq_right hbg]
        have hhue : hue6Of ⟨r, g, b⟩ = (b - r) / chroma ⟨r, g, b⟩ + 2 :=
          hue6Of_case_g hmr hmg
        by_cases hbr : b < r
        · -- min = b
          have hmn : minChannel ⟨r, g, b⟩ = b := by
            rw [hminr]; exact min_eq_right hbr.le
          have hdpos : (0 : ℚ) < g - b := by
            rw [hmn, hmg] at hlt; linarith
          have hd : chroma ⟨r, g, b⟩ = g - b := by
            unfold chroma; rw [hmg, hmn]
          rw [hmg, hmn, hhue, hd]
          set w := (b - r) / (g - b) with hw
          have hw0 : w < 0 := div_neg_of_neg_of_pos (by linarith) hdpos
          have hw1 : (-1 : ℚ) ≤ w := by rw [hw, le_div_iff hdpos]; linarith
          refine ⟨?_, ?_, ?_⟩
          · rw [hue2rgb_hi _ _ _ (by linarith) (by linarith), hw]
            field_simp
            ring
          · rw [hue2rgb_mid _ _ _ (by linarith) (by linarith)]
          · rw [hue2rgb_wrap_neg _ _ _ (by linarith) (by linarith),
                hue2rgb_top _ _ _ (by linarith) (by linarith)]
        · -- min = r
          have hrb : r ≤ b := not_lt.mp hbr
          have hmn : minChannel ⟨r, g, b⟩ = r := by
            rw [hminr]; exact min_eq_left hrb
          have hdpos : (0 : ℚ) < g - r := by
            rw [hmn, hmg] at hlt; linarith
          have hd : chroma ⟨r, g, b⟩ = g - r := by
            unfold chroma; rw [hmg, hmn]
          rw [hmg, hmn, hhue, hd]
          set w := (b - r) / (g - r) with hw
          have hw0 : 0 ≤ w := div_nonneg (by linarith) hdpos.le
          have hw1 : w ≤ 1 := by rw [hw, div_le_one hdpos]; linarith
          refine ⟨?_, ?_, ?_⟩
          · rw [hue2rgb_top _ _ _ (by linarith) (by linarith)]
          · by_cases hcase : w < 1
            · rw [hue2rgb_mid _ _ _ (by linarith) (by linarith)]
            · have hweq : w = 1 := le_antisymm hw1 (not_lt.mp hcase)
              rw [hweq, hue2rgb_hi _ _ _ (by norm_num) (by norm_num)]
              ring
          · by_cases hcase : w < 1
            · rw [hue2rgb_lo _ _ _ (by linarith) (by linarith), hw]
              field_simp
              ring
            · have hweq : w = 1 := le_antisymm hw1 (not_lt.mp hcase)
              have hbg_eq : b = g := by
                have := (div_eq_one_iff_eq (ne_of_gt hdpos)).mp (hw ▸ hweq)
                linarith
              rw [hweq, hue2rgb_mid _ _ _ (by norm_num) (by norm_num)]
              exact hbg_eq.symm
      · -- case max = b
        have hmb : maxChannel ⟨r, g, b⟩ = b := by
          rcases maxChannel_cases ⟨r, g, b⟩ with h | h | h
          · exact absurd h hmr
          · exact absurd h hmg
          · exact h
        have hrb : r < b := by
          have h := r_le_maxChannel ⟨r, g, b⟩
          rcases lt_or_eq_of_le h with h' | h'
          · rw [hmb] at h'; exact h'
          · exact absurd h'.symm hmr
        have hgb' : g < b := by
          have h := g_le_maxChannel ⟨r, g, b⟩
          rcases lt_or_eq_of_le h with h' | h'
          · rw [hmb] at h'; exact h'
          · exact absurd h'.symm hmg
        have hminr : minChannel ⟨r, g, b⟩ = min r g := by
          rw [minChannel_mk, min_eq_left hgb'.le]
        have hhue : hue6Of ⟨r, g, b⟩ = (r - g) / chroma ⟨r, g, b⟩ + 4 :=
          hue6Of_case_b hmr hmg
        by_cases hrg : r ≤ g
        · -- min = r
          have hmn : minChannel ⟨r, g, b⟩ = r := by
            rw [hminr]; exact min_eq_left hrg
          have hdpos : (0 : ℚ) < b - r := by
            rw [hmn, hmb] at hlt; linarith
          have hd : chroma ⟨r, g, b⟩ = b - r := by
            unfold chroma; rw [hmb, hmn]
          rw [hmb, hmn, hhue, hd]
          set w := (r - g) / (b - r) with hw
          have hw0 : w ≤ 0 := div_nonpos_of_nonpos_of_nonneg (by linarith) hdpos.le
          have hw1 : (-1 : ℚ) ≤ w := by rw [hw, le_div_iff hdpos]; linarith
          refine ⟨?_, ?_, ?_⟩
          · rw [hue2rgb_top _ _ _ (by linarith) (by linarith)]
          · by_cases hcase : w < 0
            · rw [hue2rgb_hi _ _ _ (by linarith) (by linarith), hw]
              field_simp
              ring
            · have hweq : w = 0 := le_antisymm hw0 (not_lt.mp hcase)
              have hrg_eq : r = g := by
                have h0 : (r - g) / (b - r) = 0 := hw ▸ hweq
                rcases div_eq_zero_iff.mp h0 with h' | h'
                · linarith
                · exact absurd h' (ne_of_gt hdpos)
              rw [hweq, hue2rgb_top _ _ _ (by norm_num) (by norm_num)]
              exact hrg_eq
          · rw [hue2rgb_mid _ _ _ (by linarith) (by linarith)]
        · -- min = g
          have hgr : g < r := not_le.mp hrg
          have hmn : minChannel ⟨r, g, b⟩ = g := by
            rw [hminr]; exact min_eq_right hgr.le
          have hdpos : (0 : ℚ) < b - g := by
            rw [hmn, hmb] at hlt; linarith
          have hd : chroma ⟨r, g, b⟩ = b - g := by
            unfold chroma; rw [hmb, hmn]
          rw [hmb, hmn, hhue, hd]
          set w := (r - g) / (b - g) with hw
          have hw0 : 0 < w := div_pos (by linarith) hdpos
          have hw1 : w < 1 := by rw [hw, div_lt_one hdpos]; linarith
          refine ⟨?_, ?_, ?_⟩
          · rw [hue2rgb_wrap_pos _ _ _ (by linarith) (by linarith),
                hue2rgb_lo _ _ _ (by linarith) (by linarith), hw]
            field_simp
            ring
          · rw [hue2rgb_top _ _ _ (by linarith) (by linarith)]
          · rw [hue2rgb_mid _ _ _ (by linarith) (by linarith)]

lemma hslP_gt_l {s l : ℚ} (hs0 : 0 < s) (hl0 : 0 < l) (hl1 : l < 1) :
    l < hslP s l := by
  unfold hslP
  split_ifs with hc
  · nlinarith
  · nlinarith

/-- A colour whose extreme channels are the `p`/`q` of `setHSL` has
saturation `s`. -/
lemma satOf_recover {s l : ℚ} (hs0 : 0 < s) (hs1 : s ≤ 1) (hl0 : 0 < l)
    (hl1 : l < 1) (c : Color) (hmx : maxChannel c = hslP s l)
    (hmn : minChannel c = 2 * l - hslP s l) : satOf c = s := by
  have hlne : l ≠ 0 := ne_of_gt hl0
  by_cases hlc : l ≤ 1/2
  · have hp : hslP s l = l * (1 + s) := by unfold hslP; rw [if_pos hlc]
    unfold satOf lightnessOf chroma
    rw [hmx, hmn, hp, if_pos (by linarith :
        (2 * l - l * (1 + s) + l * (1 + s)) / 2 ≤ 1/2)]
    rw [div_eq_iff (by intro h0; nlinarith :
        l * (1 + s) + (2 * l - l * (1 + s)) ≠ 0)]
    ring
  · have hl2 : 1/2 < l := not_le.mp hlc
    have hp : hslP s l = l + s - l * s := by unfold hslP; rw [if_neg hlc]
    unfold satOf lightnessOf chroma
    rw [hmx, hmn, hp, if_neg (by intro hcon; nlinarith :
        ¬ (2 * l - (l + s - l * s) + (l + s - l * s)) / 2 ≤ 1/2)]
    rw [div_eq_iff (by intro h0; nlinarith :
        2 - (l + s - l * s) - (2 * l - (l + s - l * s)) ≠ 0)]
    ring

/-- Assembling `getHSL` on a colour whose extreme channels are the `p`/`q`
of `setHSL` and whose computed hue is `6h`. -/
lemma getHSL_components (x y z h s l : ℚ) (hs0 : 0 < s) (hs1 : s ≤ 1)
    (hl0 : 0 < l) (hl1 : l < 1)
    (hmx : maxChannel ⟨x, y, z⟩ = hslP s l)
    (hmn : minChannel ⟨x, y, z⟩ = 2 * l - hslP s l)
    (hhue : hue6Of ⟨x, y, z⟩ = 6 * h) :
    getHSL ⟨x, y, z⟩ = ⟨h, s, l⟩ := by
  have hpl := hslP_gt_l hs0 hl0 hl1
  have hne : ¬ minChannel ⟨x, y, z⟩ = maxChannel ⟨x, y, z⟩ := by
    rw [hmn, hmx]
    intro hcon
    linarith
  rw [getHSL_nongray hne, hhue,
      satOf_recover hs0 hs1 hl0 hl1 _ hmx hmn,
      show lightnessOf ⟨x, y, z⟩ = l by unfold lightnessOf; rw [hmn, hmx]; ring,
      show (6 * h / 6 : ℚ) = h by ring]

set_option maxHeartbeats 2000000 in
/-- Second HSL round trip: reading back the colour written by `setHSL`
recovers an in-range HSL triple exactly. -/
lemma getHSL_setHSL (h s l : ℚ) (hh0 : 0 ≤ h) (hh1 : h < 1) (hs0 : 0 < s)
    (hs1 : s ≤ 1) (hl0 : 0 < l) (hl1 : l < 1) :
    getHSL (setHSL h s l) = ⟨h, s, l⟩ := by
  rw [setHSL_eval h s l hh0 hh1 hs0 hs1 hl0.le hl1.le]
  set p := hslP s l with hp_def
  set q := 2 * l - p with hq_def
  have hpl : l < p := hslP_gt_l hs0 hl0 hl1
  have hqp : q < p := by rw [hq_def]; linarith
  have hdpos : (0 : ℚ) < p - q := sub_pos.mpr hqp
  have hdne : p - q ≠ 0 := ne_of_gt hdpos
  by_cases hsec0 : h < 1/6
  · -- sector [0, 1/6)
    rw [hue2rgb_mid q p _ (by linarith) (by linarith),
        hue2rgb_lo q p h hh0 hsec0,
        show hue2rgb q p (h - 1/3) = q by
          rw [hue2rgb_wrap_neg q p _ (by linarith) (by linarith)]
          exact hue2rgb_top q p _ (by linarith) (by linarith)]
    have hyq : q ≤ q + (p - q) * 6 * h := by
      nlinarith [mul_nonneg hdpos.le hh0]
    have hyp : q + (p - q) * 6 * h < p := by
      nlinarith [mul_pos hdpos (show (0:ℚ) < 1 - 6 * h by linarith)]
    have hmx' : maxChannel ⟨p, q + (p - q) * 6 * h, q⟩ = p := by
      rw [maxChannel_mk, max_eq_left hyq, max_eq_left hyp.le]
    have hmn' : minChannel ⟨p, q + (p - q) * 6 * h, q⟩ = q := by
      rw [minChannel_mk, min_eq_right hyq, min_eq_right hqp.le]
    refine getHSL_components _ _ _ h s l hs0 hs1 hl0 hl1 ?_ ?_ ?_
    · rw [← hp_def]; exact hmx'
    · rw [← hp_def, ← hq_def]; exact hmn'
    · rw [hue6Of_case_r hmx' (not_lt.mpr hyq)]
      unfold chroma
      rw [hmx', hmn']
      dsimp only
      rw [div_eq_iff hdne]
      ring
  · by_cases hsec1 : h < 1/3
    · -- sector [1/6, 1/3)
      have h16 : 1/6 ≤ h := not_lt.mp hsec0
      rw [hue2rgb_hi q p _ (by linarith) (by linarith),
          hue2rgb_mid q p h (by linarith) (by linarith),
          show hue2rgb q p (h - 1/3) = q by
            rw [hue2rgb_wrap_neg q p _ (by linarith) (by linarith)]
            exact hue2rgb_top q p _ (by linarith) (by linarith)]
      have hXq : q ≤ q + (p - q) * 6 * (2/3 - (h + 1/3)) := by
        nlinarith [mul_nonneg hdpos.le (show (0:ℚ) ≤ 2/3 - (h + 1/3) by linarith)]
      by_cases hb : h = 1/6
      · rw [show q + (p - q) * 6 * (2/3 - (h + 1/3)) = p by rw [hb]; ring]
        have hmx' : maxChannel ⟨p, p, q⟩ = p := by
          rw [maxChannel_mk, max_eq_left hqp.le, max_self]
        have hmn' : minChannel ⟨p, p, q⟩ = q := by
          rw [minChannel_mk, min_eq_right hqp.le, min_eq_right hqp.le]
        refine getHSL_components _ _ _ h s l hs0 hs1 hl0 hl1 ?_ ?_ ?_
        · rw [← hp_def]; exact hmx'
        · rw [← hp_def, ← hq_def]; exact hmn'
        · rw [hue6Of_case_r hmx' (not_lt.mpr hqp.le)]
          unfold chroma
          rw [hmx', hmn', hb]
          dsimp only
          rw [div_eq_iff hdne]
          ring
      · have h16' : 1/6 < h := lt_of_le_of_ne h16 (Ne.symm hb)
        have hXp : q + (p - q) * 6 * (2/3 - (h + 1/3)) < p := by
          nlinarith [mul_pos hdpos (show (0:ℚ) < 6 * h - 1 by linarith)]
        have hmx' : maxChannel ⟨q + (p - q) * 6 * (2/3 - (h + 1/3)), p, q⟩ = p := by
          rw [maxChannel_mk, max_eq_left hqp.le, max_eq_right hXp.le]
        have hmn' : minChannel ⟨q + (p - q) * 6 * (2/3 - (h + 1/3)), p, q⟩ = q := by
          rw [minChannel_mk, min_eq_right hqp.le, min_eq_right hXq]
        refine getHSL_components _ _ _ h s l hs0 hs1 hl0 hl1 ?_ ?_ ?_
        · rw [← hp_def]; exact hmx'
        · rw [← hp_def, ← hq_def]; exact hmn'
        · rw [hue6Of_case_g (by rw [hmx']; exact ne_of_gt hXp) hmx']
          unfold chroma
          rw [hmx', hmn']
          dsimp only
          field_simp
          ring
    · by_cases hsec2 : h < 1/2
      · -- sector [1/3, 1/2)
        have h13 : 1/3 ≤ h := not_lt.mp hsec1
        rw [hue2rgb_top q p _ (by linarith) (by linarith),
            hue2rgb_mid q p h (by linarith) (by linarith),
            hue2rgb_lo q p _ (by linarith) (by linarith)]
        have hZq : q ≤ q + (p - q) * 6 * (h - 1/3) := by
          nlinarith [mul_nonneg hdpos.le (show (0:ℚ) ≤ h - 1/3 by linarith)]
        have hZp : q + (p - q) * 6 * (h - 1/3) < p := by
          nlinarith [mul_pos hdpos (show (0:ℚ) < 3 - 6 * h by linarith)]
        have hmx' : maxChannel ⟨q, p, q + (p - q) * 6 * (h - 1/3)⟩ = p := by
          rw [maxChannel_mk, max_eq_left hZp.le, max_eq_right hqp.le]
        have hmn' : minChannel ⟨q, p, q + (p - q) * 6 * (h - 1/3)⟩ = q := by
          rw [minChannel_mk, min_eq_right hZp.le, min_eq_left hZq]
        refine getHSL_components _ _ _ h s l hs0 hs1 hl0 hl1 ?_ ?_ ?_
        · rw [← hp_def]; exact hmx'
        · rw [← hp_def, ← hq_def]; exact hmn'
        · rw [hue6Of_case_g (by rw [hmx']; exact ne_of_gt hqp) hmx']
          unfold chroma
          rw [hmx', hmn']
          dsimp only
          field_simp
          ring
      · by_cases hsec3 : h < 2/3
        · -- sector [1/2, 2/3)
          have h12 : 1/2 ≤ h := not_lt.mp hsec2
          rw [hue2rgb_top q p _ (by linarith) (by linarith),
              hue2rgb_hi q p h (by linarith) (by linarith),
              hue2rgb_mid q p _ (by linarith) (by linarith)]
          have hYq : q < q + (p - q) * 6 * (2/3 - h) := by
            nlinarith [mul_pos hdpos (show (0:ℚ) < 2/3 - h by linarith)]
          by_cases hb : h = 1/2
          · rw [show q + (p - q) * 6 * (2/3 - h) = p by rw [hb]; ring]
            have hmx' : maxChannel ⟨q, p, p⟩ = p := by
              rw [maxChannel_mk, max_self, max_eq_right hqp.le]
            have hmn' : minChannel ⟨q, p, p⟩ = q := by
              rw [minChannel_mk, min_self, min_eq_left hqp.le]
            refine getHSL_components _ _ _ h s l hs0 hs1 hl0 hl1 ?_ ?_ ?_
            · rw [← hp_def]; exact hmx'
            · rw [← hp_def, ← hq_def]; exact hmn'
            · rw [hue6Of_case_g (by rw [hmx']; exact ne_of_gt hqp) hmx']
              unfold chroma
              rw [hmx', hmn', hb]
              dsimp only
              rw [div_self hdne]
              norm_num
          · have h12' : 1/2 < h := lt_of_le_of_ne h12 (Ne.symm hb)
            have hYp : q + (p - q) * 6 * (2/3 - h) < p := by
              nlinarith [mul_pos hdpos (show (0:ℚ) < 6 * h - 3 by linarith)]
            have hmx' : maxChannel ⟨q, q + (p - q) * 6 * (2/3 - h), p⟩ = p := by
              rw [maxChannel_mk, max_eq_right hYp.le, max_eq_right hqp.le]
            have hmn' : minChannel ⟨q, q + (p - q) * 6 * (2/3 - h), p⟩ = q := by
              rw [minChannel_mk, min_eq_left hYp.le, min_eq_left hYq.le]
            refine getHSL_components _ _ _ h s l hs0 hs1 hl0 hl1 ?_ ?_ ?_
            · rw [← hp_def]; exact hmx'
            · rw [← hp_def, ← hq_def]; exact hmn'
            · rw [hue6Of_case_b (by rw [hmx']; exact ne_of_gt hqp)
                    (by rw [hmx']; exact ne_of_gt hYp)]
              unfold chroma
              rw [hmx', hmn']
              dsimp only
              field_simp
              ring
        · by_cases hsec4 : h < 5/6
          · -- sector [2/3, 5/6)
            have h23 : 2/3 ≤ h := not_lt.mp hsec3
            rw [hue2rgb_top q p h (by linarith) (by linarith),
                hue2rgb_mid q p (h - 1/3) (by linarith) (by linarith)]
            by_cases hb : h = 2/3
            · rw [show hue2rgb q p (h + 1/3) = q by
                    exact hue2rgb_top q p _ (by linarith) (by linarith)]
              have hmx' : maxChannel ⟨q, q, p⟩ = p := by
                rw [maxChannel_mk, max_eq_right hqp.le, max_eq_right hqp.le]
              have hmn' : minChannel ⟨q, q, p⟩ = q := by
                rw [minChannel_mk, min_eq_left hqp.le, min_self]
              refine getHSL_components _ _ _ h s l hs0 hs1 hl0 hl1 ?_ ?_ ?_
              · rw [← hp_def]; exact hmx'
              · rw [← hp_def, ← hq_def]; exact hmn'
              · rw [hue6Of_case_b (by rw [hmx']; exact ne_of_gt hqp)
                      (by rw [hmx']; exact ne_of_gt hqp)]
                unfold chroma
                rw [hmx', hmn', hb]
                dsimp only
                field_simp
                norm_num
            · have h23' : 2/3 < h := lt_of_le_of_ne h23 (Ne.symm hb)
              rw [show hue2rgb q p (h + 1/3) = q + (p - q) * 6 * (h + 1/3 - 1) by
                    rw [hue2rgb_wrap_pos q p _ (by linarith) (by linarith)]
                    exact hue2rgb_lo q p _ (by linarith) (by linarith)]
              have hXq : q < q + (p - q) * 6 * (h + 1/3 - 1) := by
                nlinarith [mul_pos hdpos (show (0:ℚ) < h + 1/3 - 1 by linarith)]
              have hXp : q + (p - q) * 6 * (h + 1/3 - 1) < p := by
                nlinarith [mul_pos hdpos (show (0:ℚ) < 5 - 6 * h by linarith)]
              have hmx' : maxChannel ⟨q + (p - q) * 6 * (h + 1/3 - 1), q, p⟩ = p := by
                rw [maxChannel_mk, max_eq_right hqp.le, max_eq_right hXp.le]
              have hmn' : minChannel ⟨q + (p - q) * 6 * (h + 1/3 - 1), q, p⟩ = q := by
                rw [minChannel_mk, min_eq_left hqp.le, min_eq_right hXq.le]
              refine getHSL_components _ _ _ h s l hs0 hs1 hl0 hl1 ?_ ?_ ?_
              · rw [← hp_def]; exact hmx'
              · rw [← hp_def, ← hq_def]; exact hmn'
              · rw [hue6Of_case_b (by rw [hmx']; exact ne_of_gt hXp)
                      (by rw [hmx']; exact ne_of_gt hqp)]
                unfold chroma
                rw [hmx', hmn']
                dsimp only
                field_simp
                ring
          · -- sector [5/6, 1)
            have h56 : 5/6 ≤ h := not_lt.mp hsec4
            rw [show hue2rgb q p (h + 1/3) = p by
                  rw [hue2rgb_wrap_pos q p _ (by linarith) (by linarith)]
                  exact hue2rgb_mid q p _ (by linarith) (by linarith),
                hue2rgb_top q p h (by linarith) (by linarith),
                hue2rgb_hi q p _ (by linarith) (by linarith)]
            have hZq : q < q + (p - q) * 6 * (2/3 - (h - 1/3)) := by
              nlinarith [mul_pos hdpos (show (0:ℚ) < 2/3 - (h - 1/3) by linarith)]
            have hZp : q + (p - q) * 6 * (2/3 - (h - 1/3)) ≤ p := by
              nlinarith [mul_nonneg hdpos.le (show (0:ℚ) ≤ 6 * h - 5 by linarith)]
            have hmx' : maxChannel ⟨p, q, q + (p - q) * 6 * (2/3 - (h - 1/3))⟩ = p := by
              rw [maxChannel_mk, max_eq_right hZq.le, max_eq_left hZp]
            have hmn' : minChannel ⟨p, q, q + (p - q) * 6 * (2/3 - (h - 1/3))⟩ = q := by
              rw [minChannel_mk, min_eq_left hZq.le, min_eq_right hqp.le]
            refine getHSL_components _ _ _ h s l hs0 hs1 hl0 hl1 ?_ ?_ ?_
            · rw [← hp_def]; exact hmx'
            · rw [← hp_def, ← hq_def]; exact hmn'
            · rw [hue6Of_case_r' hmx' hZq]
              unfold chroma
              rw [hmx', hmn']
              dsimp only
              field_simp
              ring


/-- C1: after `setMode('transparent')` (source mode string
`semi-transparent`) the outer surface material carries opacity equal to the
stored `transparencyLevel` and the inner lining material carries opacity
`max(0.05, transparencyLevel × 0.5)`; after `setMode('solid')` both carry
opacity `1.0`.  Holds for every starting state. -/
theorem C1_mode_transition_opacities (s : VisState) :
    ((setDisplayMode "semi-transparent" s).1.cylinderMaterial.opacity =
        s.transparencyLevel ∧
      (setDisplayMode "semi-transparent" s).1.innerCylinderMaterial.opacity =
        max (1/20) (s.transparencyLevel * (1/2))) ∧
    ((setDisplayMode "solid" s).1.cylinderMaterial.opacity = 1 ∧
      (setDisplayMode "solid" s).1.innerCylinderMaterial.opacity = 1) := by
  simp [setDisplayMode, validDisplayModes, setColorEffect, createTCSMaterial]

/-- C2: `setMode('construction')` (source mode string `knit-pattern`) forces
the mesh overlay visible regardless of the stored `showMesh` flag; a
subsequent `setMode('transparent')` (`semi-transparent`) restores the
overlay's visibility to the stored flag; and no mode transition ever changes
the stored flag itself. -/
theorem C2_mesh_overlay_visibility (s : VisState) :
    (setDisplayMode "knit-pattern" s).1.knitPatternVisible = true ∧
    (setDisplayMode "semi-transparent"
        (setDisplayMode "knit-pattern" s).1).1.knitPatternVisible = s.showMesh ∧
    ∀ mode : String, (setDisplayMode mode s).1.showMesh = s.showMesh := by
  refine ⟨?_, ?_, ?_⟩
  · simp [setDisplayMode, validDisplayModes, setColorEffect]
  · simp [setDisplayMode, validDisplayModes, setColorEffect]
  · intro mode
    unfold setDisplayMode
    split_ifs <;> simp [setColorEffect]

/-- C5: the `ui.js` complementary-colour computation is an exact involution
on 8-bit RGB colours, and it maps `#FF5733` (channels 255, 87, 51) to
`#00A8CC` (channels 0, 168, 204). -/
theorem C5_complement_involution :
    (∀ c : Color8,
        calculateComplementaryColor (calculateComplementaryColor c) = c) ∧
    calculateComplementaryColor ⟨255, 87, 51⟩ = ⟨0, 168, 204⟩ := by
  constructor
  · intro c
    obtain ⟨⟨r, hr⟩, ⟨g, hg⟩, ⟨b, hb⟩⟩ := c
    simp only [calculateComplementaryColor, Color8.mk.injEq, Fin.mk.injEq]
    omega
  · decide

/-- C6: hue inversion (read HSL, add 0.5 to the hue modulo 1.0, write back —
the `updateKnitPatternColor` computation) is the identity on every colour of
saturation 0 (a gray), and on every colour of positive saturation applying
it twice restores the original colour exactly in rational arithmetic, hence
a fortiori within floating-point rounding tolerance. -/
theorem C6_hueInvert_involution (c : Color) (hv : ValidColor c) :
    ((getHSL c).s = 0 → hueInvert c = c) ∧
    (0 < (getHSL c).s → hueInvert (hueInvert c) = c) := by
  constructor
  · intro hs
    by_cases hgray : minChannel c = maxChannel c
    · exact hueInvert_gray hv hgray
    · exfalso
      have hlt := lt_of_le_of_ne (minChannel_le_maxChannel c) hgray
      have hpos := satOf_pos hv hlt
      rw [getHSL_nongray hgray] at hs
      dsimp only at hs
      linarith
  · intro hs
    have hgray : ¬ minChannel c = maxChannel c := by
      intro hg
      rw [getHSL_gray hg] at hs
      dsimp only at hs
      linarith
    obtain ⟨hh0, hh1, hs0, hs1, hl0, hl1⟩ := getHSL_ranges hv hgray
    have hstep1 : hueInvert c =
        setHSL (emod1 ((getHSL c).h + 1/2)) (getHSL c).s (getHSL c).l := rfl
    have hstep2 : getHSL (hueInvert c) =
        ⟨emod1 ((getHSL c).h + 1/2), (getHSL c).s, (getHSL c).l⟩ := by
      rw [hstep1]
      exact getHSL_setHSL _ _ _ (emod1_nonneg _) (emod1_lt_one _) hs0 hs1 hl0 hl1
    have hstep3 : hueInvert (hueInvert c) =
        setHSL (emod1 (emod1 ((getHSL c).h + 1/2) + 1/2))
          (getHSL c).s (getHSL c).l := by
      show setHSL (emod1 ((getHSL (hueInvert c)).h + 1/2))
          (getHSL (hueInvert c)).s (getHSL (hueInvert c)).l = _
      rw [hstep2]
    rw [hstep3, emod1_half_half hh0 hh1]
    exact setHSL_getHSL c hv

/-- Witness for C6: the gray `(0.5, 0.5, 0.5)` is a fixed point of hue
inversion, and the saturated colour `(1, 1/3, 0)` returns to itself after
two inversions. -/
theorem C6_hueInvert_involution_witness :
    (ValidColor ⟨1/2, 1/2, 1/2⟩ ∧ (getHSL ⟨1/2, 1/2, 1/2⟩).s = 0 ∧
      hueInvert ⟨1/2, 1/2, 1/2⟩ = ⟨1/2, 1/2, 1/2⟩) ∧
    (ValidColor ⟨1, 1/3, 0⟩ ∧ 0 < (getHSL ⟨1, 1/3, 0⟩).s ∧
      hueInvert (hueInvert ⟨1, 1/3, 0⟩) = ⟨1, 1/3, 0⟩) := by
  have hv1 : ValidColor ⟨1/2, 1/2, 1/2⟩ := by norm_num [ValidColor]
  have hsat1 : (getHSL ⟨1/2, 1/2, 1/2⟩).s = 0 := by
    norm_num [getHSL, minChannel, maxChannel]
  have hv2 : ValidColor ⟨1, 1/3, 0⟩ := by norm_num [ValidColor]
  have hsat2 : 0 < (getHSL ⟨1, 1/3, 0⟩).s := by
    norm_num [getHSL, minChannel, maxChannel, satOf, lightnessOf, chroma]
  exact ⟨⟨hv1, hsat1, (C6_hueInvert_involution _ hv1).1 hsat1⟩,
         ⟨hv2, hsat2, (C6_hueInvert_involution _ hv2).2 hsat2⟩⟩

/-- C7: `setDisplayMode` with an unrecognised mode string leaves the whole
state unchanged and reports an error (via `console.error`, the embedding's
`some`-valued error channel); the function is total, so no exception can
escape. -/
theorem C7_invalid_mode_rejected (mode : String) (s : VisState)
    (h : mode ∉ validDisplayModes) :
    (setDisplayMode mode s).1 = s ∧
    (setDisplayMode mode s).2 = some "Invalid display mode" := by
  simp [setDisplayMode, h]

/-- Witness for C7 at the concrete invalid mode string `wireframe`. -/
theorem C7_invalid_mode_rejected_witness :
    "wireframe" ∉ validDisplayModes ∧
    (setDisplayMode "wireframe" initialState).1 = initialState ∧
    (setDisplayMode "wireframe" initialState).2 = some "Invalid display mode" := by
  have h : "wireframe" ∉ validDisplayModes := by simp [validDisplayModes]
  exact ⟨h, (C7_invalid_mode_rejected "wireframe" initialState h).1,
            (C7_invalid_mode_rejected "wireframe" initialState h).2⟩

/-- C8 (amended): `setTransparencyLevel` clamps to `[0,1]` (input 1.5 stores
1.0, input −0.3 stores 0.0) and `setStemSegments` clamps to `[4,24]` (input
30 stores 24, input 1 stores 4), but `setStemOffset` stores its input
unchanged — the source performs no clamping there. -/
theorem C8_numeric_setters (s : VisState) :
    ((setTransparencyLevel (3/2) s).transparencyLevel = 1 ∧
      (setTransparencyLevel (-(3/10)) s).transparencyLevel = 0 ∧
      ∀ level : ℚ, 0 ≤ (setTransparencyLevel level s).transparencyLevel ∧
        (setTransparencyLevel level s).transparencyLevel ≤ 1) ∧
    ((setStemSegments 30 s).curvedStemSegments = 24 ∧
      (setStemSegments 1 s).curvedStemSegments = 4 ∧
      ∀ segments : ℤ, 4 ≤ (setStemSegments segments s).curvedStemSegments ∧
        (setStemSegments segments s).curvedStemSegments ≤ 24) ∧
    ∀ offset : ℚ, (setStemOffset offset s).stemMaxOffset = offset := by
  have hstore : ∀ level : ℚ,
      (setTransparencyLevel level s).transparencyLevel = max 0 (min 1 level) := by
    intro level
    simp only [setTransparencyLevel]
    split_ifs <;> rfl
  refine ⟨⟨?_, ?_, ?_⟩, ⟨?_, ?_, ?_⟩, ?_⟩
  · rw [hstore]; norm_num
  · rw [hstore]; norm_num
  · intro level
    rw [hstore]
    exact ⟨le_max_left 0 _, max_le (by norm_num) (min_le_left 1 level)⟩
  · simp [setStemSegments]
  · simp [setStemSegments]
  · intro segments
    unfold setStemSegments
    constructor
    · exact le_max_left 4 _
    · exact max_le (by norm_num) (min_le_right segments 24)
  · intro offset; rfl

/-- Counterexample to C8 as stated: `setStemOffset(1.5)` stores `1.5`, not a
value clamped into `[0,1]`. -/
theorem C8_counterexample :
    (setStemOffset (3/2) initialState).stemMaxOffset = 3/2 ∧
    ¬ (setStemOffset (3/2) initialState).stemMaxOffset ≤ 1 := by
  refine ⟨rfl, ?_⟩
  show ¬ (3/2 : ℚ) ≤ 1
  norm_num

/-- C9 (evaluating the code at the failing input): the `resetCamera` that is
effective at runtime — the last of the three definitions in the class body —
moves a camera standing at `(5,0,0)` to `(0,2,5)` in the call itself; by
contrast, the eased 1000 ms move the claim describes (implemented by the two
shadowed definitions) would still be at the start pose at `elapsed = 0`, and
its interpolation factor is `1 − (1 − min(elapsed/1000, 1))³` throughout. -/
theorem C9_resetCamera_divergence :
    (resetCameraEffective ⟨⟨5, 0, 0⟩, ⟨0, 0, 0⟩⟩).position = ⟨0, 2, 5⟩ ∧
    (resetCameraEffective ⟨⟨5, 0, 0⟩, ⟨0, 0, 0⟩⟩).position ≠ (⟨5, 0, 0⟩ : Vec3) ∧
    (shadowedResetCameraSample ⟨⟨5, 0, 0⟩, ⟨0, 0, 0⟩⟩ 0).position = ⟨5, 0, 0⟩ ∧
    ∀ (start : CameraState) (newPosition newTarget : Vec3) (elapsed : ℚ),
      (animateCameraMoveSample start newPosition newTarget elapsed).position =
        lerpVec start.position newPosition
          (1 - (1 - min (elapsed / 1000) 1) ^ 3) := by
  refine ⟨rfl, ?_, ?_, ?_⟩
  · simp [resetCameraEffective, Vec3.mk.injEq]
  · simp [shadowedResetCameraSample, animateCameraMoveSample, cameraProgress,
          easeOutCubic, lerpVec]
  · intro start newPosition newTarget elapsed
    rfl

lemma curvedPaths_cons_straight (c : Color) (rest : List Stem) :
    curvedPaths (Stem.straight c :: rest) = curvedPaths rest := by
  simp [curvedPaths]

lemma curvedPaths_map_curved (f : ℕ → StemPath) (l : List ℕ) :
    curvedPaths (l.map (fun i => Stem.curved (f i))) = l.map f := by
  induction l with
  | nil => rfl
  | cons x xs ih => simp only [List.map_cons, curvedPaths, List.filterMap_cons] at ih ⊢; rw [ih]

lemma straightStems_cons_straight (c : Color) (rest : List Stem) :
    straightStems (Stem.straight c :: rest) = c :: straightStems rest := by
  simp [straightStems]

lemma straightStems_map_curved (f : ℕ → StemPath) (l : List ℕ) :
    straightStems (l.map (fun i => Stem.curved (f i))) = [] := by
  induction l with
  | nil => rfl
  | cons x xs ih => simp only [List.map_cons, straightStems, List.filterMap_cons] at ih ⊢; exact ih

lemma getD_map_range {α : Type} [Inhabited α] (f : ℕ → α) (n i : ℕ) (h : i < n) :
    ((List.range n).map f).getD i default = f i := by
  rw [List.getD_eq_getElem?_getD, List.getElem?_map, List.getElem?_range h]
  rfl

/-- The stem group in multiple-stems mode, for a positive segment count. -/
lemma createCurvedStem_multiple (s : VisState) (n : ℕ) (hn : 0 < n)
    (hm : s.showMultipleStems = true) (hseg : s.curvedStemSegments = (n : ℤ)) :
    createCurvedStem s =
      Stem.straight s.currentColor ::
        (List.range n).map (fun (i : ℕ) =>
          Stem.curved ⟨(i : ℚ) / (n : ℚ),
                       segmentPoints s.currentColor s.stemMaxOffset⟩) := by
  have hne : (n : ℤ) ≠ 0 := by omega
  simp [createCurvedStem, hm, hseg, hne]

/-- C3: with `showMultipleStems` and a segment count `n ∈ [4,24]`, the stem
group holds exactly `n` curved paths — the `i`-th at angle `2π·i/n`, i.e. at
`i/n` of a full turn — plus exactly one straight central stem; without
`showMultipleStems` it holds exactly one curved path at angle 0 plus the same
straight central stem. -/
theorem C3_stem_generation (n : ℕ) (s : VisState) (h4 : 4 ≤ n) (h24 : n ≤ 24) :
    (curvedPaths (createCurvedStem
        { s with showMultipleStems := true,
                 curvedStemSegments := (n : ℤ) })).length = n ∧
    (∀ i, i < n →
      ((curvedPaths (createCurvedStem
          { s with showMultipleStems := true,
                   curvedStemSegments := (n : ℤ) })).getD i default).angleTurn =
        (i : ℚ) / (n : ℚ)) ∧
    straightStems (createCurvedStem
        { s with showMultipleStems := true,
                 curvedStemSegments := (n : ℤ) }) = [s.currentColor] ∧
    curvedPaths (createCurvedStem { s with showMultipleStems := false }) =
      [⟨0, segmentPoints s.currentColor s.stemMaxOffset⟩] ∧
    straightStems (createCurvedStem { s with showMultipleStems := false }) =
      [s.currentColor] := by
  have hgroup := createCurvedStem_multiple
    { s with showMultipleStems := true, curvedStemSegments := (n : ℤ) }
    n (by omega) rfl rfl
  refine ⟨?_, ?_, ?_, ?_, ?_⟩
  · rw [hgroup, curvedPaths_cons_straight, curvedPaths_map_curved]
    simp
  · intro i hi
    rw [hgroup, curvedPaths_cons_straight, curvedPaths_map_curved,
        getD_map_range _ _ _ hi]
  · rw [hgroup, straightStems_cons_straight, straightStems_map_curved]
  · simp [createCurvedStem, curvedPaths, List.filterMap_cons]
  · simp [createCurvedStem, straightStems, List.filterMap_cons]

/-- Witness for C3 at the smallest admissible segment count `n = 4`. -/
theorem C3_stem_generation_witness :
    ((4 : ℕ) ≤ 4 ∧ (4 : ℕ) ≤ 24) ∧
    ((curvedPaths (createCurvedStem
        { initialState with showMultipleStems := true,
                            curvedStemSegments := ((4 : ℕ) : ℤ) })).length = 4 ∧
      ((curvedPaths (createCurvedStem
          { initialState with showMultipleStems := true,
                              curvedStemSegments := ((4 : ℕ) : ℤ) })).getD 3
          default).angleTurn = (3 : ℚ) / (4 : ℚ)) := by
  have h := C3_stem_generation 4 initialState (by norm_num) (by norm_num)
  exact ⟨⟨by norm_num, by norm_num⟩, h.1, h.2.1 3 (by norm_num)⟩

/-- C4: every curved stem path any state generates consists of exactly five
control points at heights −1.5, −0.75, 0, 0.75, 1.5, coloured black,
`currentColor × 0.3`, `currentColor`, `currentColor` blended 70 % towards
white, and white, with radial offsets `stemMaxOffset × {0, 0.5, 1, 0.5, 0}`
along the path's angular direction. -/
theorem C4_stem_control_points (s : VisState) (p : StemPath)
    (hp : p ∈ curvedPaths (createCurvedStem s)) :
    p.points.length = 5 ∧
    p.points.map StemPoint.height = [-(3/2), -(3/4), 0, 3/4, 3/2] ∧
    p.points.map StemPoint.color =
      [blackColor, multiplyScalar s.currentColor (3/10), s.currentColor,
       lerpColor s.currentColor whiteColor (7/10), whiteColor] ∧
    p.points.map StemPoint.radial =
      [0, s.stemMaxOffset * (1/2), s.stemMaxOffset,
       s.stemMaxOffset * (1/2), 0] := by
  have hpts : p.points = segmentPoints s.currentColor s.stemMaxOffset := by
    by_cases hm : s.showMultipleStems
    · simp only [createCurvedStem, hm, if_true] at hp
      rw [curvedPaths_cons_straight, curvedPaths_map_curved] at hp
      obtain ⟨i, -, rfl⟩ := List.mem_map.mp hp
      rfl
    · simp only [createCurvedStem, hm, if_false, Bool.false_eq_true] at hp
      have : curvedPaths
          [Stem.straight s.currentColor,
           Stem.curved ⟨0, segmentPoints s.currentColor s.stemMaxOffset⟩] =
          [⟨0, segmentPoints s.currentColor s.stemMaxOffset⟩] := by
        simp [curvedPaths, List.filterMap_cons]
      rw [this, List.mem_singleton] at hp
      rw [hp]
  rw [hpts]
  simp [segmentPoints]

/-- Witness for C4: the single curved path generated from the initial state
(which has `showMultipleStems = false`). -/
theorem C4_stem_control_points_witness :
    (⟨0, segmentPoints initialState.currentColor initialState.stemMaxOffset⟩ :
        StemPath) ∈ curvedPaths (createCurvedStem initialState) ∧
    ((⟨0, segmentPoints initialState.currentColor
        initialState.stemMaxOffset⟩ : StemPath).points.length = 5 ∧
      (⟨0, segmentPoints initialState.currentColor
        initialState.stemMaxOffset⟩ : StemPath).points.map StemPoint.height =
        [-(3/2), -(3/4), 0, 3/4, 3/2]) := by
  have hmem : (⟨0, segmentPoints initialState.currentColor
      initialState.stemMaxOffset⟩ : StemPath) ∈
      curvedPaths (createCurvedStem initialState) := by
    have hm : initialState.showMultipleStems = false := rfl
    simp [createCurvedStem, hm, curvedPaths, List.filterMap_cons]
  have h := C4_stem_control_points initialState _ hmem
  exact ⟨hmem, h.1, h.2.1⟩

/-- C10: turning rotation on records the flag and resets the `rotation.y` of
the outer cylinder, the inner cylinder and the stem group to 0; turning it
off records the flag and leaves every rotation angle unchanged. -/
theorem C10_toggleRotation (s : VisState) :
    ((toggleRotation true s).isRotating = true ∧
      (toggleRotation true s).cylinderRotY = 0 ∧
      (toggleRotation true s).innerCylinderRotY = 0 ∧
      (toggleRotation true s).centerLineRotY = 0) ∧
    ((toggleRotation false s).isRotating = false ∧
      (toggleRotation false s).cylinderRotY = s.cylinderRotY ∧
      (toggleRotation false s).innerCylinderRotY = s.innerCylinderRotY ∧
      (toggleRotation false s).centerLineRotY = s.centerLineRotY) := by
  simp [toggleRotation]

end TCS
